import Mathlib

/-!
Verification of the YouRoke Mixing & Synchronization Core.

This file shallowly embeds the four core subsystems of the repository —
the crossfader engine (`src/utils/crossfaderCurve.ts`), the waveform
analyzer (waveform extraction, synthetic fallback, BPM detection), the
controller input decoder (`useMidiController`), and the state sync
channel (`ProjectorView.handleBroadcastMessage`, `djStore`) — and proves
or refutes the specification's claims about them.

Modelling conventions:
* JavaScript IEEE-754 doubles are idealized as exact rationals `ℚ`
  wherever the code only uses field operations, `Math.min`/`Math.max`,
  `Math.abs`, `Math.floor` and `Math.round`; these definitions are
  executable and can be evaluated by `decide`.
* `Math.sin` (used only by the synthetic waveform generator) is
  idealized as `Real.sin`, so that generator is embedded over `ℝ`.
* JavaScript runtime objects whose keys may be absent (`undefined`) are
  modelled as structures of `Option` fields; object spread `{...a, ...b}`
  becomes a field-wise `Option.getD`.
-/

namespace YouRoke

/-! ## Crossfader engine (src/utils/crossfaderCurve.ts) -/

/-- Type `CrossfaderCurve` from src/types/index.ts: `'linear' | 'cut'`. -/
inductive CrossfaderCurve
  | linear
  | cut
deriving DecidableEq

/-- Type `CrossfaderOutput` from src/types/index.ts. -/
structure CrossfaderOutput where
  deckAOpacity : ℚ
  deckBOpacity : ℚ
  deckAVolume : ℚ
  deckBVolume : ℚ
deriving DecidableEq

/-- Function `applyCenterFullCurve` (crossfaderCurve.ts lines 33–59): center-full
crossfade, both decks at 100% volume in the middle; opacity normalized so
the total is 1, with a `0.5/0.5` fallback when the volume sum is not
positive. -/
def applyCenterFullCurve (value : ℚ) : CrossfaderOutput :=
  let deckAVolume : ℚ := if value ≤ 0.5 then 1 else (1 - value) * 2
  let deckBVolume : ℚ := if value ≤ 0.5 then value * 2 else 1
  let totalVolume := deckAVolume + deckBVolume
  let deckAOpacity := if totalVolume > 0 then deckAVolume / totalVolume else 0.5
  let deckBOpacity := if totalVolume > 0 then deckBVolume / totalVolume else 0.5
  ⟨deckAOpacity, deckBOpacity, deckAVolume, deckBVolume⟩

/-- Function `applyCurve` (crossfaderCurve.ts lines 15–23): clamps the position to
`[0,1]` and applies the center-full curve; the `curve` argument is
accepted but ignored. -/
def applyCurve (value : ℚ) (_curve : CrossfaderCurve) : CrossfaderOutput :=
  applyCenterFullCurve (max 0 (min 1 value))

/-- Function `midiToNormalized` (crossfaderCurve.ts lines 64–66): clamp a 7-bit
value to `[0,127]` and divide by 127. -/
def midiToNormalized (midiValue : ℚ) : ℚ :=
  max 0 (min 127 midiValue) / 127

/-! ## Controller input decoder (useMidiController.ts) -/

/-- DDJ-200 constant `CROSSFADER_CC` from src/types/index.ts. -/
def DDJ200_CROSSFADER_CC : ℕ := 51

/-- DDJ-200 constant `DECK_A_PLAY_NOTE` from src/types/index.ts (same
note number for both decks; the MIDI channel distinguishes them). -/
def DDJ200_DECK_A_PLAY_NOTE : ℕ := 11

/-- DDJ-200 constant `DECK_A_CUE_NOTE` from src/types/index.ts. -/
def DDJ200_DECK_A_CUE_NOTE : ℕ := 12

/-- A deck identifier. -/
inductive Deck
  | A
  | B
deriving DecidableEq

/-- The semantic event emitted by the decoder for one raw MIDI triple:
which callback `handleMidiMessage` invokes (or `unmapped` when it only
logs, `ignored` when the early `data.length < 2` guard returns). -/
inductive MidiEvent
  | crossfaderMove (value : ℚ)
  | transportToggle (deck : Deck)
  | cueTrigger (deck : Deck)
  | unmapped
  | ignored
deriving DecidableEq

/-- Function `handleMidiMessage` (useMidiController.ts lines 47–110) as a pure
decoder from the raw byte list to the semantic event it emits. -/
def handleMidiMessage (data : List ℕ) : MidiEvent :=
  if data.length < 2 then MidiEvent.ignored
  else
    let status := data.getD 0 0
    let data1 := data.getD 1 0
    let data2 := if 2 < data.length then data.getD 2 0 else 0
    let messageType := status &&& 0xf0
    let channel := status &&& 0x0f
    if messageType = 0xb0 ∧ data1 = DDJ200_CROSSFADER_CC then
      MidiEvent.crossfaderMove (midiToNormalized (data2 : ℚ))
    else if messageType = 0x90 ∧ 0 < data2 then
      if data1 = DDJ200_DECK_A_PLAY_NOTE then
        if channel = 0 then MidiEvent.transportToggle Deck.A
        else if channel = 1 then MidiEvent.transportToggle Deck.B
        else MidiEvent.unmapped
      else if data1 = DDJ200_DECK_A_CUE_NOTE then
        if channel = 0 then MidiEvent.cueTrigger Deck.A
        else if channel = 1 then MidiEvent.cueTrigger Deck.B
        else MidiEvent.unmapped
      else MidiEvent.unmapped
    else MidiEvent.unmapped

/-! ## Shared state and sync channel (djStore.ts, ProjectorView.tsx) -/

/-- Type `EQSettings` from src/types/index.ts. -/
structure EQSettings where
  high : ℚ
  mid : ℚ
  low : ℚ
deriving DecidableEq

/-- Type `MasterSettings` from src/types/index.ts. -/
structure MasterSettings where
  volume : ℚ
  eq : EQSettings
deriving DecidableEq

/-- Runtime view of a `DeckState` object (src/types/index.ts lines
33–46): every key may be absent at runtime (e.g. after a shallow merge
replaced the record with a partial object), so each field is an
`Option`; `seekTo`, which the interface itself types `number | null`,
carries a second `Option` for `null`. -/
structure DeckObj where
  videoId : Option String := none
  title : Option String := none
  artist : Option String := none
  playing : Option Bool := none
  lyrics : Option String := none
  eq : Option EQSettings := none
  gain : Option ℚ := none
  filter : Option ℚ := none
  currentTime : Option ℚ := none
  duration : Option ℚ := none
  seekTo : Option (Option ℚ) := none
  playbackRate : Option ℚ := none
deriving DecidableEq

/-- Type `DJStoreState` from src/types/index.ts lines 51–66: the mirrored
top-level state shape. -/
structure DJStoreState where
  crossfaderValue : ℚ
  crossfaderCurve : CrossfaderCurve
  deckA : DeckObj
  deckB : DeckObj
  master : MasterSettings
  audioEngineStarted : Bool
  isMidiConnected : Bool
deriving DecidableEq

/-- Type `Partial<DJStoreState>`: a patch object in which every top-level key
may be absent. -/
structure DJStorePatch where
  crossfaderValue : Option ℚ := none
  crossfaderCurve : Option CrossfaderCurve := none
  deckA : Option DeckObj := none
  deckB : Option DeckObj := none
  master : Option MasterSettings := none
  audioEngineStarted : Option Bool := none
  isMidiConnected : Option Bool := none
deriving DecidableEq

/-- Type `BroadcastMessage` from src/types/index.ts lines 123–125. -/
inductive BroadcastMessage
  | fullState (payload : DJStoreState)
  | stateUpdate (payload : DJStorePatch)

/-- JavaScript top-level object spread `{ ...prev, ...patch }`: a key
present in the patch overrides, an absent key is preserved. -/
def mergePatch (prev : DJStoreState) (p : DJStorePatch) : DJStoreState where
  crossfaderValue := p.crossfaderValue.getD prev.crossfaderValue
  crossfaderCurve := p.crossfaderCurve.getD prev.crossfaderCurve
  deckA := p.deckA.getD prev.deckA
  deckB := p.deckB.getD prev.deckB
  master := p.master.getD prev.master
  audioEngineStarted := p.audioEngineStarted.getD prev.audioEngineStarted
  isMidiConnected := p.isMidiConnected.getD prev.isMidiConnected

/-- Function `handleBroadcastMessage` (ProjectorView.tsx lines 28–37):
`FULL_STATE` replaces the mirrored state wholesale, `STATE_UPDATE`
shallow-merges the patch over it. -/
def handleBroadcastMessage (prev : DJStoreState) : BroadcastMessage → DJStoreState
  | BroadcastMessage.fullState payload => payload
  | BroadcastMessage.stateUpdate payload => mergePatch prev payload

/-- Function `setCrossfader` (djStore.ts lines 34–37): clamp to `[0,1]`, then
store. -/
def setCrossfader (st : DJStoreState) (value : ℚ) : DJStoreState :=
  { st with crossfaderValue := max 0 (min 1 value) }

/-- Function `applyStateUpdate` (djStore.ts lines 203–205): `setState(updates)`,
i.e. a shallow top-level merge with no clamping. -/
def applyStateUpdate (st : DJStoreState) (updates : DJStorePatch) : DJStoreState :=
  mergePatch st updates

/-- Constant `DEFAULT_EQ` from src/types/index.ts. -/
def DEFAULT_EQ : EQSettings := ⟨0, 0, 0⟩

/-- Constant `DEFAULT_MASTER` from src/types/index.ts. -/
def DEFAULT_MASTER : MasterSettings := ⟨1, DEFAULT_EQ⟩

/-- Constant `DEFAULT_DECK_STATE` from src/types/index.ts (all keys present). -/
def DEFAULT_DECK_STATE : DeckObj where
  videoId := some ""
  title := some ""
  artist := some ""
  playing := some false
  lyrics := some ""
  eq := some DEFAULT_EQ
  gain := some 1
  filter := some 0
  currentTime := some 0
  duration := some 0
  seekTo := some none
  playbackRate := some 1

/-- Constant `DEFAULT_DJ_STATE` from src/types/index.ts. -/
def DEFAULT_DJ_STATE : DJStoreState where
  crossfaderValue := 0.5
  crossfaderCurve := CrossfaderCurve.linear
  deckA := DEFAULT_DECK_STATE
  deckB := DEFAULT_DECK_STATE
  master := DEFAULT_MASTER
  audioEngineStarted := false
  isMidiConnected := false

/-! ## Waveform extraction from audio bytes (vite middleware, part of the
WaveformAnalyzer) -/

/-- Function `applyDynamicScaling` (lines 32–48): two-segment piecewise rescaling,
quiet inputs `[0, 0.4)` compressed into `[0, 0.15)`, loud inputs
`[0.4, 1]` expanded into `[0.15, 1]`. -/
def applyDynamicScaling (value : ℚ) : ℚ :=
  let threshold : ℚ := 0.4
  let thresholdOutput : ℚ := 0.15
  if value < threshold then
    (value / threshold) * thresholdOutput
  else
    let normalizedAboveThreshold := (value - threshold) / (1 - threshold)
    thresholdOutput + normalizedAboveThreshold * (1 - thresholdOutput)

/-- Model of `Math.max(...)` over a list of rationals (0 on the empty list, which
is unreachable for a requested sample count of at least 1). -/
def listMax : List ℚ → ℚ
  | [] => 0
  | [a] => a
  | a :: b :: rest => max a (listMax (b :: rest))

/-- Model of `Math.min(...)` over a list of rationals (0 on the empty list, which
is unreachable for a requested sample count of at least 1). -/
def listMin : List ℚ → ℚ
  | [] => 0
  | [a] => a
  | a :: b :: rest => min a (listMin (b :: rest))

/-- One window of the byte-energy loop in `generateWaveformData` (lines
62–82): the mean absolute deviation from 128 of the bytes in
`[start, stop)` (0 when the window is empty). -/
def windowAvg (buf : List ℕ) (start stop : ℕ) : ℚ :=
  let sum : ℚ := (((List.range (stop - start)).map
    (fun j => |((buf.getD (start + j) 0 : ℚ)) - 128|)).sum)
  let count : ℕ := stop - start
  if 0 < count then sum / count else 0

/-- The first pass of `generateWaveformData` (lines 54–82): skip the
header region, split the remaining bytes into `sampleCount` windows, and
push `min 1 (avg / 80)` for each window. -/
def generateWaveformDataRaw (buf : List ℕ) (sampleCount : ℕ) : List ℚ :=
  let headerOffset := min 100 (buf.length / 100)
  let dataLength := buf.length - headerOffset
  let adjustedBytesPerSample := dataLength / sampleCount
  (List.range sampleCount).map (fun i =>
    let start := headerOffset + i * adjustedBytesPerSample
    let stop := min (start + adjustedBytesPerSample) buf.length
    min 1 (windowAvg buf start stop / 80))

/-- Function `generateWaveformData` (lines 54–101): raw byte-energy samples, the
near-silence cutoff (`max < 0.02` yields all zeros), min/max
normalization (range-based when the range exceeds 0.01, max-based
otherwise), and the final dynamic scaling. -/
def generateWaveformData (buf : List ℕ) (sampleCount : ℕ) : List ℚ :=
  let waveform := generateWaveformDataRaw buf sampleCount
  let mx := listMax waveform
  let mn := listMin waveform
  let range := mx - mn
  if mx < 0.02 then
    waveform.map (fun _ => 0)
  else
    let normalized :=
      if range > 0.01 then waveform.map (fun v => (v - mn) / range)
      else waveform.map (fun v => v / mx)
    normalized.map applyDynamicScaling

/-! ## BPM detection (`detectBPM`, lines 107–179 of the middleware) -/

/-- Quantity `samplesPerSecond = waveform.length / durationSeconds`. -/
def samplesPerSecond (waveform : List ℚ) (durationSeconds : ℚ) : ℚ :=
  (waveform.length : ℚ) / durationSeconds

/-- Quantity `minLag = Math.floor((60 / maxBPM) * samplesPerSecond)` with
`maxBPM = 180`. -/
def bpmMinLag (waveform : List ℚ) (durationSeconds : ℚ) : ℕ :=
  (((60 : ℚ) / 180 * samplesPerSecond waveform durationSeconds).floor).toNat

/-- Quantity `maxLag = Math.floor((60 / minBPM) * samplesPerSecond)` with
`minBPM = 60`. -/
def bpmMaxLag (waveform : List ℚ) (durationSeconds : ℚ) : ℕ :=
  (((60 : ℚ) / 60 * samplesPerSecond waveform durationSeconds).floor).toNat

/-- Quantity `windowSize = Math.max(3, Math.floor(samplesPerSecond / 20))`. -/
def bpmWindowSize (waveform : List ℚ) (durationSeconds : ℚ) : ℕ :=
  max 3 ((samplesPerSecond waveform durationSeconds / 20).floor).toNat

/-- One entry of the energy envelope (lines 125–133): mean of the
waveform over `[i - windowSize, min (length, i + windowSize))` (natural
subtraction models the `Math.max(0, i - windowSize)` lower bound). -/
def envelopeEntry (waveform : List ℚ) (windowSize i : ℕ) : ℚ :=
  let lo := i - windowSize
  let hi := min waveform.length (i + windowSize)
  let count : ℕ := hi - lo
  let sum : ℚ := ((List.range count).map (fun j => waveform.getD (lo + j) 0)).sum
  if 0 < count then sum / count else 0

/-- The smoothed energy envelope (lines 123–133). -/
def envelope (waveform : List ℚ) (windowSize : ℕ) : List ℚ :=
  (List.range waveform.length).map (envelopeEntry waveform windowSize)

/-- The onset series (lines 136–140): clamped-positive first difference
of the envelope; one entry shorter than the envelope. -/
def onsetsOf (env : List ℚ) : List ℚ :=
  (List.range (env.length - 1)).map (fun i => max 0 (env.getD (i + 1) 0 - env.getD i 0))

/-- The onset series of `detectBPM` for a given waveform and duration. -/
def bpmOnsets (waveform : List ℚ) (durationSeconds : ℚ) : List ℚ :=
  onsetsOf (envelope waveform (bpmWindowSize waveform durationSeconds))

/-- The raw (unnormalized) autocorrelation of the onset series at one
lag (lines 150–153). -/
def rawCorrelation (onsets : List ℚ) (lag : ℕ) : ℚ :=
  ((List.range (onsets.length - lag)).map
    (fun i => onsets.getD i 0 * onsets.getD (i + lag) 0)).sum

/-- One iteration of the lag loop (lines 146–168): normalize the
correlation by the term count, weight it toward 125 BPM, and keep the
lag if the weighted correlation strictly exceeds the best so far. The
accumulator is `(bestLag, bestCorrelation)`. -/
def bpmStep (onsets : List ℚ) (sps : ℚ) (best : ℕ × ℚ) (lag : ℕ) : ℕ × ℚ :=
  let count : ℕ := onsets.length - lag
  if 0 < count then
    let correlation := rawCorrelation onsets lag / count
    let bpmAtLag := 60 * sps / (lag : ℚ)
    let tempoWeight := 1 - |bpmAtLag - 125| / 200
    let weighted := correlation * (1 + tempoWeight * 0.3)
    if best.2 < weighted then (lag, weighted) else best
  else best

/-- The exclusive upper bound of the lag loop: `lag <= maxLag` and
`lag < onsets.length / 2` (the latter as `2 * lag < length`). -/
def bpmLagStop (waveform : List ℚ) (durationSeconds : ℚ) : ℕ :=
  min (bpmMaxLag waveform durationSeconds + 1)
    (((bpmOnsets waveform durationSeconds).length + 1) / 2)

/-- The candidate lags of the loop, in order. -/
def bpmLags (waveform : List ℚ) (durationSeconds : ℚ) : List ℕ :=
  List.range' (bpmMinLag waveform durationSeconds)
    (bpmLagStop waveform durationSeconds - bpmMinLag waveform durationSeconds)

/-- The `(bestLag, bestCorrelation)` pair after the whole lag loop,
starting from `(0, 0)`. -/
def bpmBest (waveform : List ℚ) (durationSeconds : ℚ) : ℕ × ℚ :=
  (bpmLags waveform durationSeconds).foldl
    (bpmStep (bpmOnsets waveform durationSeconds)
      (samplesPerSecond waveform durationSeconds)) (0, 0)

/-- Function `detectBPM` (lines 107–179): 0 when there is not enough data or when
no lag produced a positive weighted correlation, otherwise
`Math.round(60 * samplesPerSecond / bestLag)` (modelled as
`⌊x + 1/2⌋`). -/
def detectBPM (waveform : List ℚ) (durationSeconds : ℚ) : ℤ :=
  if waveform.length < 100 ∨ durationSeconds < 10 then 0
  else if (bpmBest waveform durationSeconds).1 = 0 then 0
  else
    (60 * samplesPerSecond waveform durationSeconds /
      (((bpmBest waveform durationSeconds).1 : ℚ)) + 0.5).floor

/-- The counterexample waveform for the BPM range claim: 100 samples,
two unit spikes three samples apart (indices 30 and 33), silence
elsewhere. -/
def bpmCexWave : List ℚ :=
  (List.range 100).map (fun i => if i = 30 ∨ i = 33 then 1 else 0)

/-- Decidable statement that every entry of a rational list lies in
`[0, 1]` (used to state the WaveformSeries range property). -/
def allInUnit (l : List ℚ) : Bool :=
  l.all (fun v => decide (0 ≤ v ∧ v ≤ 1))

/-! ## Synthetic waveform generator (`generateSyntheticWaveform`, lines
502–558 of the middleware)

`Math.sin` is idealized as `Real.sin`, so these definitions live over
`ℝ` and are noncomputable; every other operation is exact. -/

/-- The seed (lines 506–511): `duration * 1000` plus the
character-weighted hash `Σ charCode(i) * (i+1) * 127` of the video id. -/
noncomputable def syntheticSeed (duration : ℝ) (videoId : String) : ℝ :=
  duration * 1000 +
    ((videoId.toList.enum).map (fun p => (p.2.toNat : ℝ) * ((p.1 : ℝ) + 1) * 127)).sum

/-- The seeded pseudo-random function (lines 514–517):
`frac (sin (x * 12.9898 + seed * 78.233) * 43758.5453)`. -/
noncomputable def syntheticRandom (seed x : ℝ) : ℝ :=
  Int.fract (Real.sin (x * 12.9898 + seed * 78.233) * 43758.5453)

/-- The envelope base value (lines 522–526): fade in over the first 5%,
fade out over the last 5%, slight bulge in the middle. -/
noncomputable def syntheticBase (t : ℝ) : ℝ :=
  if t < 0.05 then t * 7
  else if t > 0.95 then (1 - t) * 7
  else 0.35 + 0.15 * Real.sin (t * Real.pi)

/-- The raw combined value of one sample before clamping (lines
528–537): base plus three sinusoidal components plus seeded noise. -/
noncomputable def syntheticRawValue (seed t : ℝ) (i : ℕ) : ℝ :=
  syntheticBase t +
    Real.sin (t * 47 + seed * 0.01) * 0.12 +
    Real.sin (t * 113 + seed * 0.007) * 0.08 +
    Real.sin (t * 211 + seed * 0.003) * 0.06 +
    (syntheticRandom seed (i : ℝ) - 0.5) * 0.25

/-- The clamp of line 540: `Math.max(0.08, Math.min(1, Math.abs(value)))`. -/
noncomputable def syntheticClamp (value : ℝ) : ℝ :=
  max 0.08 (min 1 |value|)

/-- The occasional beat amplification (lines 543–546), capped at 1. -/
noncomputable def syntheticBeat (seed : ℝ) (i : ℕ) (value : ℝ) : ℝ :=
  let beatPattern := syntheticRandom seed ((i : ℝ) * 0.1)
  if beatPattern > 0.85 then min 1 (value * (1.2 + beatPattern * 0.5)) else value

/-- The verse/chorus section multiplier (lines 549–552): sections 2 and
3 of the coarse 8-slot grid are 10% louder. Note this multiplication
happens after the clamp of line 540 and after the `min 1` cap of line
545. -/
noncomputable def syntheticSection (t value : ℝ) : ℝ :=
  if ⌊t * 8⌋ % 4 = 2 ∨ ⌊t * 8⌋ % 4 = 3 then value * 1.1 else value

/-- One sample of the synthetic waveform: the body of the loop in lines
519–555 at index `i`. -/
noncomputable def syntheticSample (samples : ℕ) (seed : ℝ) (i : ℕ) : ℝ :=
  let t : ℝ := (i : ℝ) / (samples : ℝ)
  syntheticSection t (syntheticBeat seed i (syntheticClamp (syntheticRawValue seed t i)))

/-- Function `generateSyntheticWaveform` (lines 502–558). -/
noncomputable def generateSyntheticWaveform (samples : ℕ) (duration : ℝ)
    (videoId : String) : List ℝ :=
  (List.range samples).map (syntheticSample samples (syntheticSeed duration videoId))

/-! ## Theorems: crossfader engine (claims C1, C2) -/

/-- On in-range input the clamp in `applyCurve` is the identity. -/
theorem applyCurve_clamp_id (p : ℚ) (c : CrossfaderCurve) (h0 : 0 ≤ p) (h1 : p ≤ 1) :
    applyCurve p c = applyCenterFullCurve p := by
  unfold applyCurve
  rw [min_eq_right h1, max_eq_right h0]

/-- Left-half volumes of the center-full curve. -/
theorem centerFull_volumes_left (p : ℚ) (hp : p ≤ 0.5) :
    (applyCenterFullCurve p).deckAVolume = 1 ∧
    (applyCenterFullCurve p).deckBVolume = p * 2 := by
  unfold applyCenterFullCurve
  simp [hp]

/-- Right-half volumes of the center-full curve. -/
theorem centerFull_volumes_right (p : ℚ) (hp : ¬ p ≤ 0.5) :
    (applyCenterFullCurve p).deckAVolume = (1 - p) * 2 ∧
    (applyCenterFullCurve p).deckBVolume = 1 := by
  unfold applyCenterFullCurve
  simp [hp]

/-- C1: for every curve mode and every position `p ∈ [0,1]`, `applyCurve`
returns `volumeA = 1`, `volumeB = 2·p` when `p ≤ 0.5` and
`volumeA = 2·(1−p)`, `volumeB = 1` when `p > 0.5`; hence `volumeA = 1` or
`volumeB = 1` everywhere, and the `curve` argument (`linear` vs `cut`)
never changes the output. -/
theorem applyCurve_center_full_law (p : ℚ) (c : CrossfaderCurve)
    (h0 : 0 ≤ p) (h1 : p ≤ 1) :
    (applyCurve p c).deckAVolume = (if p ≤ 0.5 then 1 else 2 * (1 - p)) ∧
    (applyCurve p c).deckBVolume = (if p ≤ 0.5 then 2 * p else 1) ∧
    ((applyCurve p c).deckAVolume = 1 ∨ (applyCurve p c).deckBVolume = 1) ∧
    applyCurve p CrossfaderCurve.linear = applyCurve p CrossfaderCurve.cut := by
  rw [applyCurve_clamp_id p c h0 h1]
  refine ⟨?_, ?_, ?_, rfl⟩
  · by_cases hp : p ≤ 0.5
    · rw [if_pos hp, (centerFull_volumes_left p hp).1]
    · rw [if_neg hp, (centerFull_volumes_right p hp).1]; ring
  · by_cases hp : p ≤ 0.5
    · rw [if_pos hp, (centerFull_volumes_left p hp).2]; ring
    · rw [if_neg hp, (centerFull_volumes_right p hp).2]
  · by_cases hp : p ≤ 0.5
    · exact Or.inl (centerFull_volumes_left p hp).1
    · exact Or.inr (centerFull_volumes_right p hp).2

/-- Witness for C1 at position `1/4` with curve `linear`. -/
theorem applyCurve_center_full_law_witness :
    (0:ℚ) ≤ 0.25 ∧ (0.25:ℚ) ≤ 1 ∧
    ((applyCurve 0.25 CrossfaderCurve.linear).deckAVolume
        = (if (0.25:ℚ) ≤ 0.5 then 1 else 2 * (1 - 0.25)) ∧
     (applyCurve 0.25 CrossfaderCurve.linear).deckBVolume
        = (if (0.25:ℚ) ≤ 0.5 then 2 * 0.25 else 1) ∧
     ((applyCurve 0.25 CrossfaderCurve.linear).deckAVolume = 1 ∨
      (applyCurve 0.25 CrossfaderCurve.linear).deckBVolume = 1) ∧
     applyCurve 0.25 CrossfaderCurve.linear = applyCurve 0.25 CrossfaderCurve.cut) :=
  ⟨by norm_num, by norm_num,
    applyCurve_center_full_law 0.25 CrossfaderCurve.linear (by norm_num) (by norm_num)⟩

/-- C2: for every position `p ∈ [0,1]` and every curve mode the
opacities of `applyCurve` sum to exactly 1 and each equals its deck's
volume divided by the volume sum, which is never zero there; the
degenerate `0.5/0.5` fallback of the curve is exhibited at the raw curve
input `-0.5`, the unique point with volume sum zero. -/
theorem applyCurve_opacity_normalized (p : ℚ) (c : CrossfaderCurve)
    (h0 : 0 ≤ p) (h1 : p ≤ 1) :
    (applyCurve p c).deckAOpacity + (applyCurve p c).deckBOpacity = 1 ∧
    (applyCurve p c).deckAOpacity =
      (applyCurve p c).deckAVolume /
        ((applyCurve p c).deckAVolume + (applyCurve p c).deckBVolume) ∧
    (applyCurve p c).deckBOpacity =
      (applyCurve p c).deckBVolume /
        ((applyCurve p c).deckAVolume + (applyCurve p c).deckBVolume) ∧
    (applyCurve p c).deckAVolume + (applyCurve p c).deckBVolume ≠ 0 ∧
    (applyCenterFullCurve (-0.5)).deckAVolume + (applyCenterFullCurve (-0.5)).deckBVolume = 0 ∧
    (applyCenterFullCurve (-0.5)).deckAOpacity = 0.5 ∧
    (applyCenterFullCurve (-0.5)).deckBOpacity = 0.5 := by
  rw [applyCurve_clamp_id p c h0 h1]
  have hdeg : ((-0.5 : ℚ) ≤ 0.5) := by norm_num
  have hdegA := (centerFull_volumes_left (-0.5) hdeg).1
  have hdegB := (centerFull_volumes_left (-0.5) hdeg).2
  have hdegsum : (applyCenterFullCurve (-0.5)).deckAVolume +
      (applyCenterFullCurve (-0.5)).deckBVolume = 0 := by
    rw [hdegA, hdegB]; norm_num
  have hdegO : (applyCenterFullCurve (-0.5)).deckAOpacity = 0.5 ∧
      (applyCenterFullCurve (-0.5)).deckBOpacity = 0.5 := by
    unfold applyCenterFullCurve
    norm_num
  by_cases hp : p ≤ 0.5
  · have hA := (centerFull_volumes_left p hp).1
    have hB := (centerFull_volumes_left p hp).2
    have htot : (applyCenterFullCurve p).deckAVolume +
        (applyCenterFullCurve p).deckBVolume = 1 + p * 2 := by rw [hA, hB]
    have hpos : (0:ℚ) < 1 + p * 2 := by linarith
    have hOA : (applyCenterFullCurve p).deckAOpacity = 1 / (1 + p * 2) := by
      unfold applyCenterFullCurve
      simp only [if_pos hp, if_pos hpos]
    have hOB : (applyCenterFullCurve p).deckBOpacity = p * 2 / (1 + p * 2) := by
      unfold applyCenterFullCurve
      simp only [if_pos hp, if_pos hpos]
    refine ⟨?_, ?_, ?_, ?_, hdegsum, hdegO.1, hdegO.2⟩
    · rw [hOA, hOB, div_add_div_same, div_self hpos.ne']
    · rw [hOA, htot, hA]
    · rw [hOB, htot, hB]
    · rw [htot]; exact hpos.ne'
  · have hA := (centerFull_volumes_right p hp).1
    have hB := (centerFull_volumes_right p hp).2
    have htot : (applyCenterFullCurve p).deckAVolume +
        (applyCenterFullCurve p).deckBVolume = (1 - p) * 2 + 1 := by rw [hA, hB]
    have hpos : (0:ℚ) < (1 - p) * 2 + 1 := by nlinarith
    have hOA : (applyCenterFullCurve p).deckAOpacity = (1 - p) * 2 / ((1 - p) * 2 + 1) := by
      unfold applyCenterFullCurve
      simp only [if_neg hp, if_pos hpos]
    have hOB : (applyCenterFullCurve p).deckBOpacity = 1 / ((1 - p) * 2 + 1) := by
      unfold applyCenterFullCurve
      simp only [if_neg hp, if_pos hpos]
    refine ⟨?_, ?_, ?_, ?_, hdegsum, hdegO.1, hdegO.2⟩
    · rw [hOA, hOB, div_add_div_same, div_self hpos.ne']
    · rw [hOA, htot, hA]
    · rw [hOB, htot, hB]
    · rw [htot]; exact hpos.ne'

/-- Witness for C2 at position `3/4` with curve `cut`. -/
theorem applyCurve_opacity_normalized_witness :
    (0:ℚ) ≤ 0.75 ∧ (0.75:ℚ) ≤ 1 ∧
    ((applyCurve 0.75 CrossfaderCurve.cut).deckAOpacity +
        (applyCurve 0.75 CrossfaderCurve.cut).deckBOpacity = 1 ∧
     (applyCurve 0.75 CrossfaderCurve.cut).deckAOpacity =
        (applyCurve 0.75 CrossfaderCurve.cut).deckAVolume /
          ((applyCurve 0.75 CrossfaderCurve.cut).deckAVolume +
            (applyCurve 0.75 CrossfaderCurve.cut).deckBVolume) ∧
     (applyCurve 0.75 CrossfaderCurve.cut).deckBOpacity =
        (applyCurve 0.75 CrossfaderCurve.cut).deckBVolume /
          ((applyCurve 0.75 CrossfaderCurve.cut).deckAVolume +
            (applyCurve 0.75 CrossfaderCurve.cut).deckBVolume) ∧
     (applyCurve 0.75 CrossfaderCurve.cut).deckAVolume +
        (applyCurve 0.75 CrossfaderCurve.cut).deckBVolume ≠ 0 ∧
     (applyCenterFullCurve (-0.5)).deckAVolume + (applyCenterFullCurve (-0.5)).deckBVolume = 0 ∧
     (applyCenterFullCurve (-0.5)).deckAOpacity = 0.5 ∧
     (applyCenterFullCurve (-0.5)).deckBOpacity = 0.5) :=
  ⟨by norm_num, by norm_num,
    applyCurve_opacity_normalized 0.75 CrossfaderCurve.cut (by norm_num) (by norm_num)⟩

/-! ## Theorems: write boundaries and sync channel (claims C3, C8, C10) -/

/-- C3 counterexample: applying a received `FullState` whose
`crossfaderValue` is 2 on the secondary surface stores 2 verbatim — the
sync-apply path performs no clamping, so this write path leaves an
out-of-range crossfader position in state, contrary to the claim. -/
theorem sync_apply_unclamped_cex :
    (handleBroadcastMessage DEFAULT_DJ_STATE
      (BroadcastMessage.fullState { DEFAULT_DJ_STATE with crossfaderValue := 2 })).crossfaderValue
      = 2 ∧
    ¬ (handleBroadcastMessage DEFAULT_DJ_STATE
      (BroadcastMessage.fullState { DEFAULT_DJ_STATE with crossfaderValue := 2 })).crossfaderValue
      ≤ 1 :=
  ⟨rfl, by norm_num [handleBroadcastMessage]⟩

/-- C3 (amended): the store's `setCrossfader` clamps its argument to
`[0,1]` and the controller decoder's crossfader path
(`midiToNormalized`) always produces a value in `[0,1]`, but applying a
received `FullState` or `StateUpdate` on the secondary surface (and the
store's `applyStateUpdate`) stores the incoming `crossfaderValue`
verbatim without clamping, so the sync-apply write path can leave an
out-of-range crossfader position in state. -/
theorem crossfader_write_boundaries :
    (∀ (st : DJStoreState) (v : ℚ),
      0 ≤ (setCrossfader st v).crossfaderValue ∧ (setCrossfader st v).crossfaderValue ≤ 1) ∧
    (∀ v : ℚ, 0 ≤ midiToNormalized v ∧ midiToNormalized v ≤ 1) ∧
    (∀ (prev s : DJStoreState),
      (handleBroadcastMessage prev (BroadcastMessage.fullState s)).crossfaderValue
        = s.crossfaderValue) ∧
    (∀ (prev : DJStoreState) (q : DJStorePatch),
      (handleBroadcastMessage prev (BroadcastMessage.stateUpdate q)).crossfaderValue
        = q.crossfaderValue.getD prev.crossfaderValue) ∧
    (∀ (st : DJStoreState) (q : DJStorePatch),
      (applyStateUpdate st q).crossfaderValue = q.crossfaderValue.getD st.crossfaderValue) := by
  refine ⟨fun st v => ⟨le_max_left _ _, ?_⟩, fun v => ⟨?_, ?_⟩,
    fun _ _ => rfl, fun _ _ => rfl, fun _ _ => rfl⟩
  · exact max_le (by norm_num) (min_le_left _ _)
  · exact div_nonneg (le_max_left _ _) (by norm_num)
  · unfold midiToNormalized
    rw [div_le_one (by norm_num : (0:ℚ) < 127)]
    exact max_le (by norm_num) (min_le_left _ _)

/-- C8: `STATE_UPDATE` shallow-merges exactly the top-level fields
present in the patch (each resulting field is the patch's field when
present and the previous one otherwise); in particular a patch carrying
only `deckA` leaves `deckB`, `crossfaderValue` and all other top-level
fields untouched; and `FULL_STATE` replaces the mirrored state
wholesale. -/
theorem handleBroadcastMessage_shallow_merge :
    (∀ (prev s : DJStoreState), handleBroadcastMessage prev (BroadcastMessage.fullState s) = s) ∧
    (∀ (prev : DJStoreState) (q : DJStorePatch),
      (handleBroadcastMessage prev (BroadcastMessage.stateUpdate q)).crossfaderValue
          = q.crossfaderValue.getD prev.crossfaderValue ∧
      (handleBroadcastMessage prev (BroadcastMessage.stateUpdate q)).crossfaderCurve
          = q.crossfaderCurve.getD prev.crossfaderCurve ∧
      (handleBroadcastMessage prev (BroadcastMessage.stateUpdate q)).deckA
          = q.deckA.getD prev.deckA ∧
      (handleBroadcastMessage prev (BroadcastMessage.stateUpdate q)).deckB
          = q.deckB.getD prev.deckB ∧
      (handleBroadcastMessage prev (BroadcastMessage.stateUpdate q)).master
          = q.master.getD prev.master ∧
      (handleBroadcastMessage prev (BroadcastMessage.stateUpdate q)).audioEngineStarted
          = q.audioEngineStarted.getD prev.audioEngineStarted ∧
      (handleBroadcastMessage prev (BroadcastMessage.stateUpdate q)).isMidiConnected
          = q.isMidiConnected.getD prev.isMidiConnected) ∧
    (∀ (prev : DJStoreState) (d : DeckObj),
      (handleBroadcastMessage prev (BroadcastMessage.stateUpdate { deckA := some d })).deckB
          = prev.deckB ∧
      (handleBroadcastMessage prev (BroadcastMessage.stateUpdate { deckA := some d })).crossfaderValue
          = prev.crossfaderValue ∧
      (handleBroadcastMessage prev (BroadcastMessage.stateUpdate { deckA := some d })).crossfaderCurve
          = prev.crossfaderCurve ∧
      (handleBroadcastMessage prev (BroadcastMessage.stateUpdate { deckA := some d })).master
          = prev.master ∧
      (handleBroadcastMessage prev (BroadcastMessage.stateUpdate { deckA := some d })).audioEngineStarted
          = prev.audioEngineStarted ∧
      (handleBroadcastMessage prev (BroadcastMessage.stateUpdate { deckA := some d })).isMidiConnected
          = prev.isMidiConnected) :=
  ⟨fun _ _ => rfl,
   fun _ _ => ⟨rfl, rfl, rfl, rfl, rfl, rfl, rfl⟩,
   fun _ _ => ⟨rfl, rfl, rfl, rfl, rfl, rfl⟩⟩

/-- C10: the `STATE_UPDATE` merge is shallow at the top level only — a
patch `{deckA: d}` makes the mirrored `deckA` exactly `d`, so fields of
the previous `deckA` absent from `d` are lost, not preserved; e.g. after
`{deckA: {playing: true}}` the mirrored `deckA` has no `videoId` and no
`title`, whatever the previous deck record held. -/
theorem stateUpdate_replaces_deck_wholesale :
    (∀ (prev : DJStoreState) (d : DeckObj),
      (handleBroadcastMessage prev (BroadcastMessage.stateUpdate { deckA := some d })).deckA = d) ∧
    (∀ prev : DJStoreState,
      (handleBroadcastMessage prev
        (BroadcastMessage.stateUpdate { deckA := some { playing := some true } })).deckA.videoId
        = none ∧
      (handleBroadcastMessage prev
        (BroadcastMessage.stateUpdate { deckA := some { playing := some true } })).deckA.title
        = none ∧
      (handleBroadcastMessage prev
        (BroadcastMessage.stateUpdate { deckA := some { playing := some true } })).deckA.playing
        = some true) :=
  ⟨fun _ _ => rfl, fun _ => ⟨rfl, rfl, rfl⟩⟩

/-! ## Theorems: controller input decoder (claim C7) -/

section RatEvaluation

attribute [local semireducible] Rat.add Rat.mul Rat.inv Rat.sub Rat.ofScientific

/-- C7: the decoder maps `[0xB0, 51, 127]` to `CrossfaderMove 1`
(`data2/127` through `midiToNormalized`), `[0x90, 11, 100]` (Note-On,
channel 0, velocity 100) to `TransportToggle` for deck A, and
`[0x90, 11, 0]` (Note-On with velocity 0) to `Unmapped` — no crossfader
or transport event — and, being a total function, never throws. -/
theorem handleMidiMessage_decode_examples :
    handleMidiMessage [0xb0, 51, 127] = MidiEvent.crossfaderMove 1 ∧
    handleMidiMessage [0x90, 11, 100] = MidiEvent.transportToggle Deck.A ∧
    handleMidiMessage [0x90, 11, 0] = MidiEvent.unmapped := by
  decide

end RatEvaluation

/-! ## Theorems: synthetic waveform generator (claims C4, C9) -/

/-- The pseudo-random texture values are nonnegative (they are
fractional parts). -/
theorem syntheticRandom_nonneg (seed x : ℝ) : 0 ≤ syntheticRandom seed x :=
  Int.fract_nonneg _

/-- The clamp of line 540 lands in `[0.08, 1]`. -/
theorem syntheticClamp_mem (v : ℝ) : 0.08 ≤ syntheticClamp v ∧ syntheticClamp v ≤ 1 :=
  ⟨le_max_left _ _, max_le (by norm_num) (min_le_left _ _)⟩

/-- The beat amplification keeps values in `[0.08, 1]`. -/
theorem syntheticBeat_mem (seed : ℝ) (i : ℕ) (v : ℝ) (h0 : 0.08 ≤ v) (h1 : v ≤ 1) :
    0.08 ≤ syntheticBeat seed i v ∧ syntheticBeat seed i v ≤ 1 := by
  have hbp : (0:ℝ) ≤ syntheticRandom seed ((i : ℝ) * 0.1) := syntheticRandom_nonneg _ _
  have hv0 : (0:ℝ) ≤ v := le_trans (by norm_num) h0
  unfold syntheticBeat
  by_cases hb : syntheticRandom seed ((i : ℝ) * 0.1) > 0.85
  · simp only [if_pos hb]
    constructor
    · refine le_min (by norm_num) ?_
      nlinarith
    · exact min_le_left _ _
  · simp only [if_neg hb]
    exact ⟨h0, h1⟩

/-- The section multiplier maps `[0.08, 1]` into `[0.08, 1.1]`. -/
theorem syntheticSection_mem (t v : ℝ) (h0 : 0.08 ≤ v) (h1 : v ≤ 1) :
    0.08 ≤ syntheticSection t v ∧ syntheticSection t v ≤ 1.1 := by
  unfold syntheticSection
  have hv0 : (0:ℝ) ≤ v := le_trans (by norm_num) h0
  split
  · constructor <;> nlinarith
  · exact ⟨h0, by linarith⟩

/-- Every synthetic sample lies in `[0.08, 1.1]`. -/
theorem syntheticSample_mem (samples : ℕ) (seed : ℝ) (i : ℕ) :
    0.08 ≤ syntheticSample samples seed i ∧ syntheticSample samples seed i ≤ 1.1 := by
  unfold syntheticSample
  have hc := syntheticClamp_mem (syntheticRawValue seed ((i : ℝ) / (samples : ℝ)) i)
  have hb := syntheticBeat_mem seed i _ hc.1 hc.2
  exact syntheticSection_mem _ _ hb.1 hb.2

/-- C4 (actual range of the code): every sample of
`generateSyntheticWaveform` lies in `[0.08, 1.1]` — the chorus-section
multiplier of lines 549–552 runs after the `[0.08, 1]` clamp of line 540
and after the `min 1` cap of line 545, so the code only guarantees the
bound 1.1, not the claimed bound 1. -/
theorem generateSyntheticWaveform_range (samples : ℕ) (duration : ℝ) (videoId : String) :
    ∀ x ∈ generateSyntheticWaveform samples duration videoId, 0.08 ≤ x ∧ x ≤ 1.1 := by
  intro x hx
  unfold generateSyntheticWaveform at hx
  obtain ⟨i, _, rfl⟩ := List.mem_map.mp hx
  exact syntheticSample_mem _ _ _

/-- Witness for the range theorem at `(1, 0, "")`, sample 0. -/
theorem generateSyntheticWaveform_range_witness :
    0.08 ≤ syntheticSample 1 (syntheticSeed 0 "") 0 ∧
    syntheticSample 1 (syntheticSeed 0 "") 0 ≤ 1.1 :=
  generateSyntheticWaveform_range 1 0 "" (syntheticSample 1 (syntheticSeed 0 "") 0)
    (by simp [generateSyntheticWaveform])

/-- C9: the synthetic generator is deterministic — two calls with equal
`(sampleCount, durationSeconds, trackId)` return identical sequences. -/
theorem generateSyntheticWaveform_deterministic (n₁ n₂ : ℕ) (d₁ d₂ : ℝ) (id₁ id₂ : String)
    (hn : n₁ = n₂) (hd : d₁ = d₂) (hid : id₁ = id₂) :
    generateSyntheticWaveform n₁ d₁ id₁ = generateSyntheticWaveform n₂ d₂ id₂ := by
  rw [hn, hd, hid]

/-- Witness for C9 at `(200, 180, "abc123")`. -/
theorem generateSyntheticWaveform_deterministic_witness :
    (200:ℕ) = 200 ∧ (180:ℝ) = 180 ∧ "abc123" = "abc123" ∧
    generateSyntheticWaveform 200 180 "abc123" = generateSyntheticWaveform 200 180 "abc123" :=
  ⟨rfl, rfl, rfl,
    generateSyntheticWaveform_deterministic 200 200 180 180 "abc123" "abc123" rfl rfl rfl⟩

/-! ## Theorems: waveform extraction (claim C5) -/

/-- Defining equation of `listMax` on lists with at least two entries. -/
theorem listMax_cons_cons (a b : ℚ) (l : List ℚ) :
    listMax (a :: b :: l) = max a (listMax (b :: l)) := rfl

/-- Defining equation of `listMin` on lists with at least two entries. -/
theorem listMin_cons_cons (a b : ℚ) (l : List ℚ) :
    listMin (a :: b :: l) = min a (listMin (b :: l)) := rfl

/-- Every member of a list is at most its `listMax`. -/
theorem le_listMax {l : List ℚ} {x : ℚ} (hx : x ∈ l) : x ≤ listMax l := by
  induction l with
  | nil => cases hx
  | cons a t ih =>
    cases t with
    | nil =>
      rcases List.mem_cons.mp hx with h | h
      · subst h; exact le_refl x
      · cases h
    | cons b t2 =>
      rw [listMax_cons_cons]
      rcases List.mem_cons.mp hx with h | h
      · subst h; exact le_max_left _ _
      · exact le_trans (ih h) (le_max_right _ _)

/-- Every member of a list is at least its `listMin`. -/
theorem listMin_le {l : List ℚ} {x : ℚ} (hx : x ∈ l) : listMin l ≤ x := by
  induction l with
  | nil => cases hx
  | cons a t ih =>
    cases t with
    | nil =>
      rcases List.mem_cons.mp hx with h | h
      · subst h; exact le_refl x
      · cases h
    | cons b t2 =>
      rw [listMin_cons_cons]
      rcases List.mem_cons.mp hx with h | h
      · subst h; exact min_le_left _ _
      · exact le_trans (min_le_right _ _) (ih h)

/-- Value of `listMax` on an all-zero list is 0. -/
theorem listMax_replicate_zero (n : ℕ) : listMax (List.replicate n (0:ℚ)) = 0 := by
  induction n with
  | zero => rfl
  | succ m ih =>
    cases m with
    | zero => rfl
    | succ k =>
      rw [List.replicate_succ, List.replicate_succ, listMax_cons_cons,
        ← List.replicate_succ, ih]
      exact max_self 0

/-- Window averages of the byte-energy pass are nonnegative. -/
theorem windowAvg_nonneg (buf : List ℕ) (s t : ℕ) : 0 ≤ windowAvg buf s t := by
  unfold windowAvg
  dsimp only
  split
  · apply div_nonneg
    · apply List.sum_nonneg
      intro x hx
      obtain ⟨j, _, rfl⟩ := List.mem_map.mp hx
      exact abs_nonneg _
    · exact_mod_cast Nat.zero_le _
  · exact le_refl 0

/-- The raw byte-energy samples lie in `[0, 1]`. -/
theorem generateWaveformDataRaw_mem (buf : List ℕ) (n : ℕ) :
    ∀ x ∈ generateWaveformDataRaw buf n, 0 ≤ x ∧ x ≤ 1 := by
  intro x hx
  unfold generateWaveformDataRaw at hx
  obtain ⟨i, _, rfl⟩ := List.mem_map.mp hx
  exact ⟨le_min (by norm_num) (div_nonneg (windowAvg_nonneg _ _ _) (by norm_num)),
    min_le_left _ _⟩

/-- The raw pass always yields the requested number of samples. -/
theorem generateWaveformDataRaw_length (buf : List ℕ) (n : ℕ) :
    (generateWaveformDataRaw buf n).length = n := by
  unfold generateWaveformDataRaw
  simp

/-- Function `generateWaveformData` always yields the requested number of
samples. -/
theorem generateWaveformData_length (buf : List ℕ) (n : ℕ) :
    (generateWaveformData buf n).length = n := by
  unfold generateWaveformData
  dsimp only
  split
  · rw [List.length_map, generateWaveformDataRaw_length]
  · rw [List.length_map]
    split <;> rw [List.length_map, generateWaveformDataRaw_length]

/-- The dynamic scaling maps `[0, 1]` into `[0, 1]`. -/
theorem applyDynamicScaling_mem (v : ℚ) (h0 : 0 ≤ v) (h1 : v ≤ 1) :
    0 ≤ applyDynamicScaling v ∧ applyDynamicScaling v ≤ 1 := by
  unfold applyDynamicScaling
  dsimp only
  split
  next h =>
    constructor
    · exact mul_nonneg (div_nonneg h0 (by norm_num)) (by norm_num)
    · have e : v / 0.4 * 0.15 = v * 0.375 := by ring
      rw [e]; nlinarith
  next h =>
    push_neg at h
    constructor
    · have e : (0:ℚ) ≤ (v - 0.4) / (1 - 0.4) * (1 - 0.15) := by
        apply mul_nonneg (div_nonneg (by linarith) (by norm_num)) (by norm_num)
      linarith
    · have e : (v - 0.4) / (1 - 0.4) * (1 - 0.15) = (v - 0.4) * (17/12) := by ring
      rw [e]; nlinarith

/-- Every value produced by `generateWaveformData` lies in `[0, 1]`. -/
theorem generateWaveformData_mem (buf : List ℕ) (n : ℕ) :
    ∀ x ∈ generateWaveformData buf n, 0 ≤ x ∧ x ≤ 1 := by
  intro x hx
  unfold generateWaveformData at hx
  dsimp only at hx
  by_cases hmx : listMax (generateWaveformDataRaw buf n) < 0.02
  · rw [if_pos hmx] at hx
    obtain ⟨v, _, rfl⟩ := List.mem_map.mp hx
    norm_num
  · rw [if_neg hmx] at hx
    push_neg at hmx
    have hmxpos : (0:ℚ) < listMax (generateWaveformDataRaw buf n) :=
      lt_of_lt_of_le (by norm_num) hmx
    obtain ⟨y, hy, rfl⟩ := List.mem_map.mp hx
    have hy01 : 0 ≤ y ∧ y ≤ 1 := by
      by_cases hr : listMax (generateWaveformDataRaw buf n)
          - listMin (generateWaveformDataRaw buf n) > 0.01
      · rw [if_pos hr] at hy
        obtain ⟨v, hv, rfl⟩ := List.mem_map.mp hy
        have hlo := listMin_le hv
        have hhi := le_listMax hv
        have hrpos : (0:ℚ) < listMax (generateWaveformDataRaw buf n)
            - listMin (generateWaveformDataRaw buf n) := lt_trans (by norm_num) hr
        exact ⟨div_nonneg (by linarith) hrpos.le,
          (div_le_one hrpos).mpr (by linarith)⟩
      · rw [if_neg hr] at hy
        obtain ⟨v, hv, rfl⟩ := List.mem_map.mp hy
        have h0v := (generateWaveformDataRaw_mem buf n v hv).1
        have hhi := le_listMax hv
        exact ⟨div_nonneg h0v hmxpos.le, (div_le_one hmxpos).mpr hhi⟩
    exact applyDynamicScaling_mem y hy01.1 hy01.2

/-- Predicate `allInUnit` decides exactly the `[0,1]` membership property. -/
theorem allInUnit_iff (l : List ℚ) :
    allInUnit l = true ↔ ∀ x ∈ l, 0 ≤ x ∧ x ≤ 1 := by
  unfold allInUnit
  simp

/-- In an all-128 buffer, every analysis window has zero mean absolute
deviation. -/
theorem windowAvg_replicate (L s t : ℕ) (ht : t ≤ L) :
    windowAvg (List.replicate L (128:ℕ)) s t = 0 := by
  unfold windowAvg
  dsimp only
  split
  next hc =>
    have hz : ∀ x ∈ (List.range (t - s)).map
        (fun j => |((List.replicate L (128:ℕ)).getD (s + j) 0 : ℚ) - 128|), x = 0 := by
      intro x hx
      obtain ⟨j, hj, rfl⟩ := List.mem_map.mp hx
      rw [List.mem_range] at hj
      have hjL : s + j < L := by omega
      rw [List.getD_eq_getElem?_getD, List.getElem?_replicate, if_pos hjL]
      norm_num
    rw [List.sum_eq_zero hz, zero_div]
  · rfl

/-- The raw pass on an all-128 buffer is identically zero. -/
theorem generateWaveformDataRaw_replicate (L n : ℕ) :
    generateWaveformDataRaw (List.replicate L (128:ℕ)) n = List.replicate n 0 := by
  unfold generateWaveformDataRaw
  dsimp only
  rw [List.eq_replicate_iff]
  refine ⟨by simp, ?_⟩
  intro b hb
  obtain ⟨i, _, rfl⟩ := List.mem_map.mp hb
  rw [windowAvg_replicate _ _ _ (by simp), zero_div]
  norm_num

/-- C5: for every byte buffer and every requested `sampleCount ≥ 1`,
`generateWaveformData` returns exactly `sampleCount` values, all within
`[0, 1]`; and on an all-silence buffer (every byte 128, any length) it
returns the all-zero sequence, because the pre-normalization maximum 0
falls below the 0.02 near-silence threshold. -/
theorem generateWaveformData_spec (buf : List ℕ) (n L : ℕ) (h : 1 ≤ n) :
    (generateWaveformData buf n).length = n ∧
    allInUnit (generateWaveformData buf n) = true ∧
    generateWaveformData (List.replicate L 128) n = List.replicate n 0 := by
  refine ⟨generateWaveformData_length buf n,
    (allInUnit_iff _).mpr (generateWaveformData_mem buf n), ?_⟩
  unfold generateWaveformData
  dsimp only
  rw [generateWaveformDataRaw_replicate, listMax_replicate_zero,
    if_pos (by norm_num : (0:ℚ) < 0.02), List.map_replicate]

/-- Witness for C5 at `buf = [0, 200, 7]`, `sampleCount = 2`, silence
length 5. -/
theorem generateWaveformData_spec_witness :
    1 ≤ 2 ∧ ((generateWaveformData [0, 200, 7] 2).length = 2 ∧
      allInUnit (generateWaveformData [0, 200, 7] 2) = true ∧
      generateWaveformData (List.replicate 5 128) 2 = List.replicate 2 0) :=
  ⟨by norm_num, generateWaveformData_spec [0, 200, 7] 2 5 (by norm_num)⟩

/-! ## Theorems: BPM detection (claim C6) -/

/-- One loop iteration either keeps the current best lag or switches to
the iteration's lag. -/
theorem bpmStep_fst (onsets : List ℚ) (sps : ℚ) (best : ℕ × ℚ) (lag : ℕ) :
    (bpmStep onsets sps best lag).1 = best.1 ∨ (bpmStep onsets sps best lag).1 = lag := by
  unfold bpmStep
  dsimp only
  split
  · split
    · right; rfl
    · left; rfl
  · left; rfl

/-- After folding the loop over any lag list, the best lag is either the
initial one or a member of the list. -/
theorem foldl_bpmStep_fst (onsets : List ℚ) (sps : ℚ) :
    ∀ (lags : List ℕ) (init : ℕ × ℚ),
      (lags.foldl (bpmStep onsets sps) init).1 = init.1 ∨
      (lags.foldl (bpmStep onsets sps) init).1 ∈ lags := by
  intro lags
  induction lags with
  | nil => intro init; left; rfl
  | cons a l ih =>
    intro init
    rw [List.foldl_cons]
    rcases ih (bpmStep onsets sps init a) with h | h
    · rcases bpmStep_fst onsets sps init a with h2 | h2
      · left; rw [h, h2]
      · right; rw [h, h2]; exact List.mem_cons_self a l
    · right; exact List.mem_cons_of_mem a h

/-- The best lag of `detectBPM` is 0 or a candidate lag of the loop. -/
theorem bpmBest_fst (w : List ℚ) (d : ℚ) :
    (bpmBest w d).1 = 0 ∨ (bpmBest w d).1 ∈ bpmLags w d :=
  foldl_bpmStep_fst _ _ _ _

/-- Quantity `bpmMaxLag` casts to at most `samplesPerSecond` whenever the latter
is nonnegative. -/
theorem bpmMaxLag_le (w : List ℚ) (d : ℚ) (hsps : 0 ≤ samplesPerSecond w d) :
    (bpmMaxLag w d : ℚ) ≤ samplesPerSecond w d := by
  unfold bpmMaxLag
  have h1 : (60 : ℚ) / 60 * samplesPerSecond w d = samplesPerSecond w d := by norm_num
  rw [h1]
  have hfl : (0 : ℤ) ≤ (samplesPerSecond w d).floor := Int.floor_nonneg.mpr hsps
  calc ((samplesPerSecond w d).floor.toNat : ℚ)
      = (((samplesPerSecond w d).floor.toNat : ℤ) : ℚ) := by push_cast; ring
    _ = ((samplesPerSecond w d).floor : ℚ) := by rw [Int.toNat_of_nonneg hfl]
    _ ≤ samplesPerSecond w d := Int.floor_le _

/-- C6 (amended): `detectBPM` returns either the sentinel 0 or an
integer BPM of at least 60; the claimed upper bound 180 does not hold —
because `minLag` is the floor of `samplesPerSecond/3`, the selected lag
can correspond to a tempo above 180 BPM (200 in the counterexample). -/
theorem detectBPM_amended_range (w : List ℚ) (d : ℚ) :
    detectBPM w d = 0 ∨ 60 ≤ detectBPM w d := by
  unfold detectBPM
  split
  · exact Or.inl rfl
  next hguard =>
    split
    · exact Or.inl rfl
    next hbl =>
      right
      push_neg at hguard
      obtain ⟨hlen100, hd10⟩ := hguard
      have hdpos : (0:ℚ) < d := lt_of_lt_of_le (by norm_num) hd10
      have hlenpos : (0:ℚ) < (w.length : ℚ) := by
        exact_mod_cast lt_of_lt_of_le (by norm_num) hlen100
      have hsps : (0:ℚ) < samplesPerSecond w d := div_pos hlenpos hdpos
      rcases bpmBest_fst w d with h0 | hmem
      · exact absurd h0 hbl
      · have hlag1 : 1 ≤ (bpmBest w d).1 := Nat.one_le_iff_ne_zero.mpr hbl
        have hlagle : (bpmBest w d).1 ≤ bpmMaxLag w d := by
          unfold bpmLags at hmem
          have h1 := (List.mem_range'_1.mp hmem).1
          have h2 := (List.mem_range'_1.mp hmem).2
          have h3 : bpmLagStop w d ≤ bpmMaxLag w d + 1 := min_le_left _ _
          omega
        have hcast : ((bpmBest w d).1 : ℚ) ≤ samplesPerSecond w d := by
          calc ((bpmBest w d).1 : ℚ) ≤ (bpmMaxLag w d : ℚ) := by exact_mod_cast hlagle
            _ ≤ samplesPerSecond w d := bpmMaxLag_le w d hsps.le
        have hlagpos : (0:ℚ) < ((bpmBest w d).1 : ℚ) := by exact_mod_cast hlag1
        have h60 : (60:ℚ) ≤ 60 * samplesPerSecond w d / ((bpmBest w d).1 : ℚ) := by
          rw [le_div_iff₀ hlagpos]
          nlinarith
        have hfin : ((60:ℤ):ℚ) ≤ 60 * samplesPerSecond w d / ((bpmBest w d).1 : ℚ) + 0.5 := by
          push_cast
          linarith
        exact Int.le_floor.mpr hfin

section RatEvaluationBPM

attribute [local semireducible] Rat.add Rat.mul Rat.inv Rat.sub Rat.ofScientific

set_option maxRecDepth 10000 in
/-- C6 counterexample: on a 100-sample waveform with onsets three
samples apart and duration 10 s, `detectBPM` returns 200 — neither the
sentinel 0 nor a BPM within `[60, 180]`. -/
theorem detectBPM_exceeds_180_cex :
    detectBPM bpmCexWave 10 = 200 ∧
    ¬ (detectBPM bpmCexWave 10 = 0 ∨
       (60 ≤ detectBPM bpmCexWave 10 ∧ detectBPM bpmCexWave 10 ≤ 180)) := by
  have h : detectBPM bpmCexWave 10 = 200 := by decide
  refine ⟨h, ?_⟩
  rw [h]
  decide

end RatEvaluationBPM

end YouRoke
